import Mathlib

/-! Verification of the Statscope analysis pipeline.

This file gives a shallow embedding of the analysis functions of
`analyzer.py` (together with the small piece of `app.py` that displays
categorical summaries) and proves the specification claims about them.

Conventions of the embedding:

- A pandas `DataFrame` is a `Table`: an ordered list of named, typed columns
  plus a row count.  Cells are `Option`-valued; `none` models a null (NaN)
  cell.  Columns whose dtype is neither numeric nor object are kept abstract
  (`ColData.other`), retaining only the per-row nullity flags, which is all
  the analysed code reads from them.
- Machine floats are modelled by `ℚ`.
- Pearson correlation coefficients are irrational in general (their formula
  divides by a square root), so a correlation entry is represented by its
  signed square `sign r * r ^ 2`, a strictly monotone bijective transform of
  `r` that stays inside `ℚ`.  The transform preserves everything the claims
  speak about: symmetry, the values `0` and `1`, the sign test `r > 0`
  (iff the signed square is `> 0`), and the threshold test `|r| ≥ t`
  (iff `t ≤ 0 ∨ t ^ 2 ≤ |signed square|`).  A NaN entry — produced by pandas
  `corr` when a pair of columns has no jointly non-null row or when one of
  the two columns has zero squared-deviation sum over the paired rows — is
  modelled as `none`.
- The PDF canvas of `reportlab` is modelled by the list of drawing commands
  issued to it (`DrawOp`); chart images are modelled by the data they are
  rendered from.
-/

namespace Statscope

/-- Typed cell data of one column.  `num` is a numeric dtype column,
`txt` an object (string) dtype column; `other` keeps only nullity flags
(`true` = null) of a column of any further dtype. -/
inductive ColData where
  | num (cells : List (Option ℚ))
  | txt (cells : List (Option String))
  | other (nulls : List Bool)
  deriving DecidableEq

/-- A named, typed column. -/
structure Column where
  name : String
  data : ColData
  deriving DecidableEq

/-- A loaded table: ordered columns plus the row count `len(df)`. -/
structure Table where
  cols : List Column
  nrows : Nat
  deriving DecidableEq

/-- Number of cells physically stored in a column. -/
def colLen (c : Column) : Nat :=
  match c.data with
  | .num cells => cells.length
  | .txt cells => cells.length
  | .other nulls => nulls.length

/-- Well-formedness: every column has exactly `nrows` cells. -/
def WF (df : Table) : Prop := ∀ c ∈ df.cols, colLen c = df.nrows

instance decWF (df : Table) : Decidable (WF df) :=
  inferInstanceAs (Decidable (∀ c ∈ df.cols, colLen c = df.nrows))

/-- `df[col].isnull().sum()` for one column. -/
def nullCount (c : Column) : Nat :=
  match c.data with
  | .num cells => cells.countP (fun oc => oc.isNone)
  | .txt cells => cells.countP (fun oc => oc.isNone)
  | .other nulls => nulls.countP (fun b => b)

def isNumCol (c : Column) : Bool :=
  match c.data with
  | .num _ => true
  | _ => false

def isTxtCol (c : Column) : Bool :=
  match c.data with
  | .txt _ => true
  | _ => false

/-- `df.select_dtypes(include="number").columns`, in table order. -/
def numericCols (df : Table) : List Column := df.cols.filter isNumCol

/-- `df.select_dtypes(include="object").columns`, in table order. -/
def textCols (df : Table) : List Column := df.cols.filter isTxtCol

/-- The numeric cells of a column (empty for non-numeric columns). -/
def numCells (c : Column) : List (Option ℚ) :=
  match c.data with
  | .num cells => cells
  | _ => []

/-- `df[col].dropna()` for a numeric column. -/
def dropNulls (c : Column) : List ℚ := (numCells c).filterMap id

/-- `series.mean()` (0 on an empty list; unreachable in the analysed code). -/
def qmean (l : List ℚ) : ℚ := l.sum / l.length

/-- `series.min()` (0 on an empty list; unreachable in the analysed code). -/
def qmin (l : List ℚ) : ℚ := l.min?.getD 0

/-- `series.max()` (0 on an empty list; unreachable in the analysed code). -/
def qmax (l : List ℚ) : ℚ := l.max?.getD 0

/-- `series.median()`: middle element of the sorted values, or the average of
the two middle elements for an even count. -/
def qmedian (l : List ℚ) : ℚ :=
  let s := List.insertionSort (· ≤ ·) l
  let n := s.length
  if n % 2 = 1 then s.getD (n / 2) 0
  else (s.getD (n / 2 - 1) 0 + s.getD (n / 2) 0) / 2

/-- `series.std()` (sample standard deviation, ddof = 1), kept as its square
(the sample variance) to stay in `ℚ`; `none` models the NaN that pandas
returns for fewer than two values.  No claim constrains this field. -/
def sampleVarQ (l : List ℚ) : Option ℚ :=
  if l.length ≤ 1 then none
  else some ((l.map fun x => (x - qmean l) ^ 2).sum / ((l.length : ℚ) - 1))

/-- Round to the nearest integer, ties to even (IEEE/Python rounding of a
half-way value). -/
def roundHalfEven (q : ℚ) : ℤ :=
  let f := ⌊q⌋
  let r := q - f
  if r < 1 / 2 then f
  else if 1 / 2 < r then f + 1
  else if f % 2 = 0 then f else f + 1

def padZeros (d : Nat) (s : String) : String :=
  String.mk (List.replicate (d - s.length) '0') ++ s

/-- Python `f"{x:.df}"` fixed-point formatting, on the rational model of the
float.  (Python additionally prints a negative sign on a negative value that
rounds to zero; that corner is never exercised by the claims.) -/
def formatFixed (d : Nat) (q : ℚ) : String :=
  let n := roundHalfEven (q * 10 ^ d)
  let m := n.natAbs
  (if n < 0 then "-" else "") ++ toString (m / 10 ^ d) ++ "." ++
    padZeros d (toString (m % 10 ^ d))

/-- `generate_numeric_insight(column, series, beginner)`. -/
def generate_numeric_insight (column : String) (series : List ℚ)
    (beginner : Bool) : String :=
  let mean := qmean series
  let min_val := qmin series
  let max_val := qmax series
  if beginner then
    "This column shows " ++ column ++ ". Most values are around " ++
      formatFixed 1 mean ++ ". Values usually fall between " ++
      formatFixed 1 min_val ++ " and " ++ formatFixed 1 max_val ++ "."
  else
    "For " ++ column ++ ", the mean is " ++ formatFixed 2 mean ++ "."

def pfxOf : List Char → List Char → Bool
  | [], _ => true
  | _ :: _, [] => false
  | a :: p, b :: l => a = b && pfxOf p l

def hasSub (needle : List Char) : List Char → Bool
  | [] => needle.isEmpty
  | b :: t => pfxOf needle (b :: t) || hasSub needle t

/-- Python `needle in hay` on strings (substring test). -/
def strHasSub (needle hay : String) : Bool := hasSub needle.toList hay.toList

/-- Python `s.lower()` (character-wise lowering, as `str.lower` does on the
ASCII names exercised here). -/
def strLower (s : String) : String := String.mk (s.toList.map Char.toLower)

/-- `series.nunique()`: number of distinct (non-null) values. -/
def nuniqueList (l : List ℚ) : Nat := l.dedup.length

/-- `is_likely_identifier(series, column_name, df)`; `nrows` stands for the
source's `len(df)`. -/
def is_likely_identifier (series : List ℚ) (column_name : String)
    (nrows : Nat) : Bool :=
  let name := strLower column_name
  if strHasSub "id" name || strHasSub "uuid" name then true
  else decide ((nuniqueList series : ℚ) / (nrows : ℚ) > 19 / 20)

/-- The loop guard of `analyze_numeric_columns`: a numeric column is kept
unless it is empty after dropping nulls or identifier-like. -/
def eligibleCol (nrows : Nat) (c : Column) : Bool :=
  let series := dropNulls c
  !(series.isEmpty || is_likely_identifier series c.name nrows)

/-- One record of `analyze_numeric_columns`.  `std_sq` holds the square of
the source's `std` field (see `sampleVarQ`). -/
structure NumStats where
  column : String
  mean : ℚ
  median : ℚ
  min : ℚ
  max : ℚ
  std_sq : Option ℚ
  outlier_count : Nat
  insight : String
  values : List ℚ
  deriving DecidableEq

/-- The record appended by the loop body of `analyze_numeric_columns`. -/
def mkStats (beginner : Bool) (c : Column) : NumStats :=
  let series := dropNulls c
  { column := c.name
    mean := qmean series
    median := qmedian series
    min := qmin series
    max := qmax series
    std_sq := sampleVarQ series
    outlier_count := 0
    insight := generate_numeric_insight c.name series beginner
    values := series }

/-- The loop of `analyze_numeric_columns`.  `m` is the number of records that
may still be collected before `len(results) >= max_columns` fires; the source
appends first and only then tests the bound, which `m ≤ 1 → ` one final
record mirrors (in particular `max_columns = 0` still yields one record). -/
def analyzeGo (nrows : Nat) (beginner : Bool) : Nat → List Column → List NumStats
  | _, [] => []
  | m, c :: rest =>
    if eligibleCol nrows c then
      if m ≤ 1 then [mkStats beginner c]
      else mkStats beginner c :: analyzeGo nrows beginner (m - 1) rest
    else analyzeGo nrows beginner m rest

/-- `analyze_numeric_columns(df, max_columns=3, beginner=True)`. -/
def analyze_numeric_columns (df : Table) (max_columns : Nat)
    (beginner : Bool) : List NumStats :=
  analyzeGo df.nrows beginner max_columns (numericCols df)

/-- One record of `check_missing_data`. -/
structure MissingRec where
  column : String
  count : Nat
  percentage : ℚ
  deriving DecidableEq

def mkMissing (nrows : Nat) (c : Column) : MissingRec :=
  { column := c.name
    count := nullCount c
    percentage := ((nullCount c : ℚ) / (nrows : ℚ)) * 100 }

/-- `check_missing_data(df)`: one record per column whose null count is
positive, in table column order (`missing[missing > 0].index` preserves
column order). -/
def check_missing_data (df : Table) : List MissingRec :=
  (df.cols.filter fun c => 0 < nullCount c).map (mkMissing df.nrows)

/-- The text cells of a column (empty for non-object columns). -/
def txtCells (c : Column) : List (Option String) :=
  match c.data with
  | .txt cells => cells
  | _ => []

/-- `pd.to_datetime(df[col], errors="coerce")`: null cells and unparseable
values become NaT (`none`).  The parser itself is a library external to the
repository and is passed in abstractly; a date is an abstract ordinal `ℤ`. -/
def coerceDates (parse : String → Option ℤ) (cells : List (Option String)) :
    List (Option ℤ) :=
  cells.map fun oc => oc.bind parse

/-- `dates.notna().mean() > 0.7`, i.e. parsed count / total count > 7/10;
the empty column gives a NaN mean in pandas, which compares false, matching
`10 * 0 > 7 * 0` here. -/
def fracParsedOK (parse : String → Option ℤ) (cells : List (Option String)) :
    Bool :=
  10 * ((coerceDates parse cells).filterMap id).length > 7 * cells.length

/-- `f"{dates.min().date()} to {dates.max().date()}"`; `fmt` is the external
date formatter.  `min`/`max` skip NaT; the defaults are unreachable under the
`fracParsedOK` guard. -/
def fmtDateRange (parse : String → Option ℤ) (fmt : ℤ → String)
    (cells : List (Option String)) : String :=
  let ds := (coerceDates parse cells).filterMap id
  fmt (ds.min?.getD 0) ++ " to " ++ fmt (ds.max?.getD 0)

/-- `identify_date_range(df)`: scan columns in order, consider only object
dtype columns, return the formatted range of the first one whose parsed
fraction exceeds 0.7, else a fixed message. -/
def identifyGo (parse : String → Option ℤ) (fmt : ℤ → String) :
    List Column → String
  | [] => "No date column detected"
  | c :: rest =>
    match c.data with
    | .txt cells =>
      if fracParsedOK parse cells then fmtDateRange parse fmt cells
      else identifyGo parse fmt rest
    | _ => identifyGo parse fmt rest

def identify_date_range (parse : String → Option ℤ) (fmt : ℤ → String)
    (df : Table) : String :=
  identifyGo parse fmt df.cols

/-- `get_dataset_overview(df)`. -/
structure Overview where
  total_rows : Nat
  total_columns : Nat
  date_range : String
  deriving DecidableEq

def get_dataset_overview (parse : String → Option ℤ) (fmt : ℤ → String)
    (df : Table) : Overview :=
  { total_rows := df.nrows
    total_columns := df.cols.length
    date_range := identify_date_range parse fmt df }

/-- Rows of the zipped pair of columns where both cells are non-null: the
pairwise-complete observations that pandas `corr` computes each entry over. -/
def nonNullPairs (xs ys : List (Option ℚ)) : List (ℚ × ℚ) :=
  (xs.zip ys).filterMap fun p =>
    match p with
    | (some a, some b) => some (a, b)
    | _ => none

/-- `sign c * c ^ 2`. -/
def signedSq (c : ℚ) : ℚ := if 0 ≤ c then c ^ 2 else -(c ^ 2)

/-- The Pearson correlation computation of pandas `nancorr` over a list of
paired observations, in signed square representation (see the header
comment): the entry is  cov / sqrt(ssdx * ssdy)  with unnormalised centred
sums; it is NaN (`none`) if there is no observation or `ssdx * ssdy = 0`,
and otherwise its signed square is `signedSq cov / (ssdx * ssdy)`. -/
def sqCorrCore (ps : List (ℚ × ℚ)) : Option ℚ :=
  if ps.length = 0 then none
  else
    let n : ℚ := ps.length
    let mx := (ps.map Prod.fst).sum / n
    let my := (ps.map Prod.snd).sum / n
    let cov : ℚ := (ps.map fun p => (p.1 - mx) * (p.2 - my)).sum
    let vx : ℚ := (ps.map fun p => (p.1 - mx) ^ 2).sum
    let vy : ℚ := (ps.map fun p => (p.2 - my) ^ 2).sum
    if vx * vy = 0 then none else some (signedSq cov / (vx * vy))

/-- One entry of `numeric.corr()`: the Pearson computation over the
pairwise-complete rows of the two columns. -/
def sqCorrEntry (xs ys : List (Option ℚ)) : Option ℚ :=
  sqCorrCore (nonNullPairs xs ys)

/-- The full correlation matrix over a list of (numeric) columns. -/
def corrMatrixOf (nc : List Column) : List (List (Option ℚ)) :=
  nc.map fun ci => nc.map fun cj => sqCorrEntry (numCells ci) (numCells cj)

/-- `get_correlation_matrix(df)`: `numeric.corr()` when at least two numeric
columns exist, else `None`. -/
def get_correlation_matrix (df : Table) : Option (List (List (Option ℚ))) :=
  let numeric := numericCols df
  if numeric.length ≥ 2 then some (corrMatrixOf numeric) else none

/-- The Python test `abs(corr) >= threshold` on a correlation in signed
square representation `s = sign(corr) * corr ^ 2`:
`|corr| ≥ t  ↔  t ≤ 0 ∨ t ^ 2 ≤ |s|`. -/
def absGeThreshold (t s : ℚ) : Bool := decide (t ≤ 0) || decide (t ^ 2 ≤ |s|)

/-- One record of `find_correlations`; `correlation` is in signed square
representation. -/
structure CorrPair where
  column1 : String
  column2 : String
  correlation : ℚ
  direction : String
  deriving DecidableEq

def defCol : Column := ⟨"", .num []⟩

/-- The body of the double loop of `find_correlations` at index pair `ij`:
`None` when the entry is NaN (a NaN never passes `abs(...) >= threshold`)
or fails the threshold, else the built record.  `corr > 0` on the actual
coefficient is exactly `0 < s` on its signed square. -/
def corrPairAt (nc : List Column) (threshold : ℚ) (ij : Nat × Nat) :
    Option CorrPair :=
  match sqCorrEntry (numCells (nc.getD ij.1 defCol)) (numCells (nc.getD ij.2 defCol)) with
  | none => none
  | some s =>
    if absGeThreshold threshold s then
      some { column1 := (nc.getD ij.1 defCol).name
             column2 := (nc.getD ij.2 defCol).name
             correlation := s
             direction := if 0 < s then "positive" else "negative" }
    else none

/-- `for i in range(K): for j in range(i + 1, K)`: the upper-triangular index
pairs in enumeration order. -/
def upperTriPairs (K : Nat) : List (Nat × Nat) :=
  (List.range K).flatMap fun i => (List.range' (i + 1) (K - (i + 1))).map fun j => (i, j)

/-- `find_correlations(df, threshold=0.5)`. -/
def find_correlations (df : Table) (threshold : ℚ) : List CorrPair :=
  let numeric := numericCols df
  if numeric.length < 2 then []
  else (upperTriPairs numeric.length).filterMap (corrPairAt numeric threshold)

/-- Descending order of occurrence count on `value_counts` entries. -/
def cntGe (a b : String × Nat) : Prop := b.2 ≤ a.2

instance : DecidableRel cntGe := fun a b => inferInstanceAs (Decidable (b.2 ≤ a.2))

instance : IsTotal (String × Nat) cntGe := ⟨fun a b => Nat.le_total b.2 a.2⟩

instance : IsTrans (String × Nat) cntGe := ⟨fun _ _ _ hab hbc => le_trans hbc hab⟩

/-- `value_counts()` of an object column: distinct non-null values with
their occurrence counts, sorted by descending count (stably, keeping first
appearance order among ties). -/
def value_counts (cells : List (Option String)) : List (String × Nat) :=
  let vals := cells.filterMap id
  let uniq := vals.foldl (fun acc a => if a ∈ acc then acc else acc ++ [a]) []
  List.insertionSort cntGe (uniq.map fun v => (v, vals.count v))

/-- `series.nunique()` for an object column. -/
def nuniqueTxt (cells : List (Option String)) : Nat :=
  (cells.filterMap id).dedup.length

/-- One record of `analyze_categorical_columns`.  The source stores the
`value_counts().head(10)` series in a dynamically typed dict field which the
presentation layer tests against `None`; the field is therefore modelled as
an `Option`. -/
structure CatSummary where
  column : String
  unique_count : Nat
  top_values : Option (List (String × Nat))
  deriving DecidableEq

/-- `analyze_categorical_columns(df, max_columns=2)`. -/
def analyze_categorical_columns (df : Table) (max_columns : Nat) :
    List CatSummary :=
  ((textCols df).take max_columns).map fun c =>
    { column := c.name
      unique_count := nuniqueTxt (txtCells c)
      top_values := some ((value_counts (txtCells c)).take 10) }

/-- The presentation branch of `app.py` (categories display loop): `true`
exactly when the "Too many unique values to visualize clearly." caption
would be shown instead of a bar chart. -/
def tooManyMsgShown (cat : CatSummary) : Bool := !cat.top_values.isSome

/-- `reportlab` A4 page height in points (297mm at 72/25.4 points per mm;
the source's float approximates this rational). -/
def a4Height : ℚ := 106920 / 127

/-- One drawing command issued to the PDF canvas.  Chart images are
represented by the data they are rendered from: a histogram by the values,
the bin count and the title, the heatmap by the matrix. -/
inductive DrawOp where
  | setFont (font : String) (size : ℚ)
  | drawString (x y : ℚ) (text : String)
  | drawHist (values : List ℚ) (bins : Nat) (title : String) (x y w h : ℚ)
  | drawHeatmap (m : List (List (Option ℚ))) (x y w h : ℚ)
  | showPage
  deriving DecidableEq

/-- Greedy word wrap at a given width, modelling Python `textwrap.wrap`
(whitespace-separated words joined by single spaces while the line fits). -/
def wrapWords (width : Nat) (s : String) : List String :=
  let ws := (s.splitOn " ").filter (fun w => w ≠ "")
  let step := fun (acc : List String × String) (w : String) =>
    if acc.2 = "" then (acc.1, w)
    else if acc.2.length + 1 + w.length ≤ width then (acc.1, acc.2 ++ " " ++ w)
    else (acc.1 ++ [acc.2], w)
  let r := ws.foldl step ([], "")
  if r.2 = "" then r.1 else r.1 ++ [r.2]

/-- The per-record body of the Numeric Insights loop of
`generate_pdf_report`, threading the accumulated command list and the
vertical cursor `y`. -/
def numericBlock (acc : List DrawOp × ℚ) (stat : NumStats) : List DrawOp × ℚ :=
  let acc :=
    if acc.2 < 250 then
      (acc.1 ++ [DrawOp.showPage, DrawOp.setFont "Helvetica" 11], a4Height - 50)
    else acc
  let ops := acc.1 ++ [DrawOp.setFont "Helvetica-Bold" 12,
    DrawOp.drawString 50 acc.2 stat.column]
  let y := acc.2 - 15
  let r := (wrapWords 90 stat.insight).foldl
    (fun (a : List DrawOp × ℚ) line =>
      (a.1 ++ [DrawOp.setFont "Helvetica" 11, DrawOp.drawString 50 a.2 line],
        a.2 - 14))
    (ops, y)
  (r.1 ++ [DrawOp.drawHist stat.values 20 stat.column 50 (r.2 - 120) 300 120],
    r.2 - 150)

/-- `generate_pdf_report(dataset_name, overview, numeric, corr_matrix,
categories)`, modelled as the sequence of commands drawn on the canvas.
The `categories` argument is accepted and never used, as in the source. -/
def generate_pdf_report (dataset_name : String) (overview : Overview)
    (numeric : List NumStats) (corr_matrix : Option (List (List (Option ℚ))))
    (categories : List CatSummary) : List DrawOp :=
  let _ := categories
  let head : List DrawOp :=
    [DrawOp.setFont "Helvetica-Bold" 16,
     DrawOp.drawString 50 (a4Height - 50) "Statscope Report",
     DrawOp.setFont "Helvetica-Oblique" 11,
     DrawOp.drawString 50 (a4Height - 75) ("Dataset: " ++ dataset_name),
     DrawOp.setFont "Helvetica" 11,
     DrawOp.drawString 50 (a4Height - 105) ("Rows: " ++ toString overview.total_rows),
     DrawOp.drawString 50 (a4Height - 120) ("Columns: " ++ toString overview.total_columns),
     DrawOp.drawString 50 (a4Height - 135) ("Date range: " ++ overview.date_range),
     DrawOp.setFont "Helvetica-Bold" 13,
     DrawOp.drawString 50 (a4Height - 165) "Numeric Insights"]
  let body := numeric.foldl numericBlock (head, a4Height - 185)
  match corr_matrix with
  | some m =>
    body.1 ++ [DrawOp.showPage, DrawOp.setFont "Helvetica" 11,
      DrawOp.setFont "Helvetica-Bold" 13,
      DrawOp.drawString 50 (a4Height - 50) "Correlation Heatmap",
      DrawOp.drawHeatmap m 50 (a4Height - 70 - 300) 300 300]
  | none => body.1

/-- The texts drawn on the canvas, in drawing order. -/
def drawnStrings (ops : List DrawOp) : List String :=
  ops.filterMap fun op =>
    match op with
    | .drawString _ _ t => some t
    | _ => none

/-- Division instrumented for Python `ZeroDivisionError`: `none` when the
divisor is zero.  Used by the `Chk` variants below, which are the same
translations with every division by `len(df)` made fallible, to express
that the pipeline never divides by zero. -/
def divQ (a b : ℚ) : Option ℚ := if b = 0 then none else some (a / b)

/-- `is_likely_identifier` with the `nunique / len(df)` division made
fallible; the name test short-circuits ahead of it, as the source's `or`
does. -/
def is_likely_identifierChk (series : List ℚ) (column_name : String)
    (nrows : Nat) : Option Bool :=
  let name := strLower column_name
  if strHasSub "id" name || strHasSub "uuid" name then some true
  else (divQ (nuniqueList series) (nrows : ℚ)).map fun q => decide (q > 19 / 20)

/-- The `analyze_numeric_columns` loop with the fallible identifier check;
the `series.empty` test short-circuits ahead of it, as the source's `or`
does. -/
def analyzeGoChk (nrows : Nat) (beginner : Bool) :
    Nat → List Column → Option (List NumStats)
  | _, [] => some []
  | m, c :: rest =>
    if (dropNulls c).isEmpty then analyzeGoChk nrows beginner m rest
    else
      match is_likely_identifierChk (dropNulls c) c.name nrows with
      | none => none
      | some true => analyzeGoChk nrows beginner m rest
      | some false =>
        if m ≤ 1 then some [mkStats beginner c]
        else (analyzeGoChk nrows beginner (m - 1) rest).map
          (fun l => mkStats beginner c :: l)

def analyze_numeric_columnsChk (df : Table) (max_columns : Nat)
    (beginner : Bool) : Option (List NumStats) :=
  analyzeGoChk df.nrows beginner max_columns (numericCols df)

/-- `check_missing_data` with the percentage division made fallible. -/
def check_missing_dataChk (df : Table) : Option (List MissingRec) :=
  (df.cols.filter fun c => 0 < nullCount c).mapM fun c =>
    (divQ ((nullCount c : ℚ)) ((df.nrows : ℚ))).map fun q =>
      { column := c.name, count := nullCount c, percentage := q * 100 }

/-- Concrete fixtures used to instantiate the claims. -/
def colA : Column := ⟨"score", .num [some 1, some 1, some 2]⟩

def tblA : Table := ⟨[colA], 3⟩

def colB : Column := ⟨"score", .num [some 1, some 1, some 1]⟩

def tblB : Table := ⟨[colB], 3⟩

def colM : Column := ⟨"x", .num [some 1, none]⟩

def tblM : Table := ⟨[colM], 2⟩

def tblE : Table := ⟨[⟨"a", .num []⟩, ⟨"t", .txt []⟩], 0⟩

def colC : Column := ⟨"city", .txt [some "a", some "a", some "b"]⟩

def tblC : Table := ⟨[colC], 3⟩

def catC : CatSummary := ⟨"city", 2, some [("a", 2), ("b", 1)]⟩

def colD : Column := ⟨"when", .txt [some "d1", some "d2", some "d1"]⟩

def tblD : Table := ⟨[colD], 3⟩

def parse0 : String → Option ℤ := fun s =>
  if s = "d1" then some 1 else if s = "d2" then some 5 else none

def fmt0 : ℤ → String := fun n => toString n

def colX : Column := ⟨"a", .num [some 1, some 2, some 3]⟩

def colY : Column := ⟨"b", .num [some 2, some 4, some 6]⟩

def tblXY : Table := ⟨[colX, colY], 3⟩

def colK : Column := ⟨"k", .num [some 1, some 1]⟩

def colL : Column := ⟨"l", .num [some 1, some 2]⟩

def tblKL : Table := ⟨[colK, colL], 2⟩

/-- The sum of squared deviations of a list from its mean.  A diagonal
entry of the correlation matrix for column `i` is 1 when this is nonzero on
the column's non-null values and NaN when it is zero (constant column,
fewer than two values, or no values at all). -/
def ssdList (l : List ℚ) : ℚ := (l.map fun x => (x - l.sum / l.length) ^ 2).sum

/-- Lexicographic strict order on index pairs: the enumeration order of the
double loop of `find_correlations`. -/
def pairLexLt (a b : Nat × Nat) : Prop :=
  a.1 < b.1 ∨ (a.1 = b.1 ∧ a.2 < b.2)

/-- The single correlation pair of the fixture table `tblXY` (columns
`a = [1, 2, 3]`, `b = [2, 4, 6]`, coefficient exactly 1). -/
def corrP0 : CorrPair := ⟨"a", "b", 1, "positive"⟩

/-! The theorems.  First the structural lemmas shared between claims, then
one theorem (with witness or counterexample where required) per claim. -/

/-- Closed form of the numeric analysis loop: the first `max m 1` eligible
columns, in table order.  The source appends a record and only then tests
`len(results) >= max_columns`, hence the `max · 1`. -/
theorem analyzeGo_eq (nrows : Nat) (beginner : Bool) (cols : List Column) :
    ∀ m, analyzeGo nrows beginner m cols =
      ((cols.filter (eligibleCol nrows)).map (mkStats beginner)).take (max m 1) := by
  induction cols with
  | nil => intro m; simp [analyzeGo]
  | cons c rest ih =>
    intro m
    by_cases hc : eligibleCol nrows c
    · by_cases hm : m ≤ 1
      · have hmax : max m 1 = 1 := by omega
        simp [analyzeGo, hc, hm, hmax]
      · have hmax : max m 1 = m := by omega
        have hmax' : max (m - 1) 1 = m - 1 := by omega
        have hm1 : m = (m - 1) + 1 := by omega
        simp only [analyzeGo, hc, if_true, hm, if_false, ih (m - 1), hmax', hmax,
          List.filter_cons_of_pos, List.map_cons]
        rw [hm1, List.take_succ_cons]
        simp
    · simp [analyzeGo, hc, ih m]

theorem analyze_numeric_columns_eq (df : Table) (max_columns : Nat) (beginner : Bool) :
    analyze_numeric_columns df max_columns beginner =
      (((numericCols df).filter (eligibleCol df.nrows)).map (mkStats beginner)).take
        (max max_columns 1) :=
  analyzeGo_eq df.nrows beginner (numericCols df) max_columns

/-- Unfolding of the eligibility guard into the three checks of the claim. -/
theorem eligibleCol_iff (nrows : Nat) (c : Column) :
    eligibleCol nrows c = true ↔
      dropNulls c ≠ [] ∧
      strHasSub "id" (strLower c.name) = false ∧
      strHasSub "uuid" (strLower c.name) = false ∧
      ((nuniqueList (dropNulls c) : ℚ) / (nrows : ℚ)) ≤ 19 / 20 := by
  by_cases hA : strHasSub "id" (strLower c.name) = true
  · simp [eligibleCol, is_likely_identifier, hA]
  · by_cases hB : strHasSub "uuid" (strLower c.name) = true
    · simp [eligibleCol, is_likely_identifier, hA, hB]
    · simp only [Bool.not_eq_true] at hA hB
      simp [eligibleCol, is_likely_identifier, hA, hB, List.isEmpty_iff, not_lt]

/-- The eligibility of the fixture column `colA` ([1, 1, 2] under name
"score": nonempty, no identifier name, distinct ratio 2/3). -/
theorem eligible_colA : eligibleCol 3 colA = true := by
  rw [eligibleCol_iff]
  refine ⟨by decide, by decide, by decide, ?_⟩
  have h1 : nuniqueList (dropNulls colA) = 2 := by decide
  rw [h1]
  norm_num

/-- The fixture analysis result: one record regardless of the cap. -/
theorem analyze_tblA (m : Nat) (b : Bool) :
    analyze_numeric_columns tblA m b = [mkStats b colA] := by
  rw [analyze_numeric_columns_eq]
  have h1 : numericCols tblA = [colA] := rfl
  rw [h1]
  rw [List.filter_cons_of_pos (by exact eligible_colA), List.filter_nil]
  apply List.take_of_length_le
  simp [Nat.le_max_right]

/-- C1 (amended): the number of records returned by
`analyze_numeric_columns` is at most `max max_columns 1`: at most
`max_columns` whenever `max_columns ≥ 1`, but one record can still be
returned when `max_columns = 0`, because the source appends a record before
testing the bound. -/
theorem C1_thm (df : Table) (max_columns : Nat) (beginner : Bool) :
    (analyze_numeric_columns df max_columns beginner).length ≤ max max_columns 1 := by
  rw [analyze_numeric_columns_eq, List.length_take]
  omega

/-- C1 counterexample: on a table with one eligible numeric column and
`max_columns = 0` the result has length 1, not at most 0. -/
theorem C1_cex : ¬ ((analyze_numeric_columns tblA 0 true).length ≤ 0) := by
  rw [analyze_tblA]
  simp

/-- C4: a numeric column contributes a record to `analyze_numeric_columns`
only if, after dropping nulls, it is nonempty, its lower-cased name contains
neither "id" nor "uuid", and the distinct-to-row-count ratio is at most
0.95; the result consists exactly of the first records built from such
columns, so a column failing any check contributes nothing. -/
theorem C4_thm (df : Table) (max_columns : Nat) (beginner : Bool) :
    (∀ c, eligibleCol df.nrows c = true ↔
      dropNulls c ≠ [] ∧
      strHasSub "id" (strLower c.name) = false ∧
      strHasSub "uuid" (strLower c.name) = false ∧
      ((nuniqueList (dropNulls c) : ℚ) / (df.nrows : ℚ)) ≤ 19 / 20) ∧
    analyze_numeric_columns df max_columns beginner =
      (((numericCols df).filter (eligibleCol df.nrows)).map (mkStats beginner)).take
        (max max_columns 1) ∧
    ∀ r ∈ analyze_numeric_columns df max_columns beginner,
      r ∈ ((numericCols df).filter (eligibleCol df.nrows)).map (mkStats beginner) := by
  refine ⟨fun c => eligibleCol_iff df.nrows c,
    analyze_numeric_columns_eq df max_columns beginner, fun r hr => ?_⟩
  rw [analyze_numeric_columns_eq] at hr
  exact List.mem_of_mem_take hr

/-- C4 witness: the record built from the fixture column is among the
records of the eligible columns. -/
theorem C4_wit :
    mkStats true colA ∈
      ((numericCols tblA).filter (eligibleCol tblA.nrows)).map (mkStats true) :=
  (C4_thm tblA 3 true).2.2 (mkStats true colA)
    (by rw [analyze_tblA]; exact List.mem_singleton_self _)

/-- C7: `check_missing_data` returns exactly one record per column with a
nonzero null count, in table column order, named after the column, carrying
its null count and the percentage `count / total_rows * 100`; zero-null
columns contribute no record. -/
theorem C7_thm (df : Table) :
    check_missing_data df =
      (df.cols.filter fun c => 0 < nullCount c).map (mkMissing df.nrows) ∧
    (check_missing_data df).map (fun r => r.column) =
      ((df.cols.filter fun c => 0 < nullCount c).map fun c => c.name) ∧
    ∀ r ∈ check_missing_data df,
      0 < r.count ∧ r.percentage = ((r.count : ℚ) / (df.nrows : ℚ)) * 100 := by
  refine ⟨rfl, ?_, fun r hr => ?_⟩
  · simp [check_missing_data, mkMissing]
  · unfold check_missing_data at hr
    rcases List.mem_map.mp hr with ⟨c, hc, rfl⟩
    have hpos := List.of_mem_filter hc
    simp only [decide_eq_true_eq] at hpos
    exact ⟨hpos, rfl⟩

/-- C7 witness: the fixture table with one null out of two rows yields its
record with count 1 and percentage 50. -/
theorem C7_wit :
    0 < (mkMissing tblM.nrows colM).count ∧
      (mkMissing tblM.nrows colM).percentage =
        (((mkMissing tblM.nrows colM).count : ℚ) / (tblM.nrows : ℚ)) * 100 :=
  (C7_thm tblM).2.2 (mkMissing tblM.nrows colM) (List.mem_singleton_self _)

/-- C8: every record of `analyze_numeric_columns` has `outlier_count = 0`
(the field is reserved and never computed). -/
theorem C8_thm (df : Table) (max_columns : Nat) (beginner : Bool) :
    ∀ r ∈ analyze_numeric_columns df max_columns beginner, r.outlier_count = 0 := by
  intro r hr
  rw [analyze_numeric_columns_eq] at hr
  rcases List.mem_map.mp (List.mem_of_mem_take hr) with ⟨c, _, rfl⟩
  rfl

/-- C8 witness. -/
theorem C8_wit : (mkStats true colA).outlier_count = 0 :=
  C8_thm tblA 3 true (mkStats true colA)
    (by rw [analyze_tblA]; exact List.mem_singleton_self _)

/-- Columns of a zero-length table have no nulls. -/
theorem nullCount_of_colLen_zero (c : Column) (h : colLen c = 0) :
    nullCount c = 0 := by
  rcases hc : c.data with cells | cells | nulls <;>
    simp_all [colLen, nullCount, List.length_eq_zero]

/-- Numeric columns of a zero-length table are empty after dropping nulls. -/
theorem dropNulls_of_colLen_zero (c : Column) (h : colLen c = 0) :
    dropNulls c = [] := by
  rcases hc : c.data with cells | cells | nulls <;>
    simp_all [colLen, dropNulls, numCells, List.length_eq_zero]

/-- C10: on a zero-row table both analyzers return the empty result, every
null count is zero and every numeric column is empty after dropping nulls
(so neither guarded division is reached), and the division-instrumented
variants return `some []`: no division by zero occurs. -/
theorem C10_thm (df : Table) (max_columns : Nat) (beginner : Bool)
    (hwf : WF df) (h0 : df.nrows = 0) :
    check_missing_data df = [] ∧
    analyze_numeric_columns df max_columns beginner = [] ∧
    check_missing_dataChk df = some [] ∧
    analyze_numeric_columnsChk df max_columns beginner = some [] ∧
    (∀ c ∈ df.cols, nullCount c = 0) ∧
    (∀ c ∈ numericCols df, dropNulls c = []) := by
  have hlen : ∀ c ∈ df.cols, colLen c = 0 := fun c hc => h0 ▸ hwf c hc
  have hnull : ∀ c ∈ df.cols, nullCount c = 0 :=
    fun c hc => nullCount_of_colLen_zero c (hlen c hc)
  have hdrop : ∀ c ∈ numericCols df, dropNulls c = [] :=
    fun c hc => dropNulls_of_colLen_zero c (hlen c (List.mem_of_mem_filter hc))
  have hfilter : df.cols.filter (fun c => 0 < nullCount c) = [] := by
    apply List.filter_eq_nil_iff.mpr
    intro c hc
    simp [hnull c hc]
  have hgo : ∀ (cols : List Column), (∀ c ∈ cols, dropNulls c = []) →
      ∀ m, analyzeGo df.nrows beginner m cols = [] ∧
        analyzeGoChk df.nrows beginner m cols = some [] := by
    intro cols
    induction cols with
    | nil => intro _ m; exact ⟨rfl, rfl⟩
    | cons c rest ih =>
      intro h m
      have hc : dropNulls c = [] := h c (List.mem_cons_self c rest)
      have hrest := ih (fun c' hc' => h c' (List.mem_cons_of_mem c hc'))
      have hel : eligibleCol df.nrows c = false := by
        simp [eligibleCol, hc]
      constructor
      · simp only [analyzeGo, hel, Bool.false_eq_true, if_false]
        exact (hrest m).1
      · simp only [analyzeGoChk, hc, List.isEmpty_nil, if_true]
        exact (hrest m).2
  refine ⟨?_, ?_, ?_, ?_, hnull, hdrop⟩
  · unfold check_missing_data
    rw [hfilter, List.map_nil]
  · exact (hgo (numericCols df) hdrop max_columns).1
  · unfold check_missing_dataChk
    rw [hfilter]
    rfl
  · exact (hgo (numericCols df) hdrop max_columns).2

/-- C10 witness: an empty two-column table. -/
theorem C10_wit :
    check_missing_data tblE = [] ∧
    analyze_numeric_columns tblE 3 true = [] ∧
    check_missing_dataChk tblE = some [] ∧
    analyze_numeric_columnsChk tblE 3 true = some [] ∧
    (∀ c ∈ tblE.cols, nullCount c = 0) ∧
    (∀ c ∈ numericCols tblE, dropNulls c = []) :=
  C10_thm tblE 3 true (by decide) rfl

/-- C9: every summary of `analyze_categorical_columns` carries a present
(`some`) frequency table of at most 10 entries in descending count order,
so the presentation branch showing "Too many unique values to visualize
clearly." never fires on an analyzer result. -/
theorem C9_thm (df : Table) (max_columns : Nat) :
    ∀ cat ∈ analyze_categorical_columns df max_columns,
      cat.top_values.isSome = true ∧
      tooManyMsgShown cat = false ∧
      ∀ l, cat.top_values = some l → l.length ≤ 10 ∧ l.Pairwise cntGe := by
  intro cat hcat
  rcases List.mem_map.mp hcat with ⟨c, _, rfl⟩
  refine ⟨rfl, rfl, fun l hl => ?_⟩
  simp only [Option.some.injEq] at hl
  subst hl
  refine ⟨List.length_take_le _ _, ?_⟩
  have hs : (value_counts (txtCells c)).Pairwise cntGe :=
    List.sorted_insertionSort cntGe _
  exact hs.sublist (List.take_sublist _ _)

/-- C9 witness: the fixture categorical table. -/
theorem C9_wit :
    catC.top_values.isSome = true ∧
    tooManyMsgShown catC = false ∧
    ([("a", 2), ("b", 1)].length ≤ 10 ∧ List.Pairwise cntGe [("a", 2), ("b", 1)]) := by
  have h := C9_thm tblC 2 catC (by decide)
  exact ⟨h.1, h.2.1, h.2.2 [("a", 2), ("b", 1)] (by decide)⟩

/-- `identify_date_range` returns the fixed message when no object column
passes the parsed-fraction test. -/
theorem identifyGo_none (parse : String → Option ℤ) (fmt : ℤ → String) :
    ∀ cols : List Column,
      (∀ c ∈ cols, ∀ cells, c.data = .txt cells → fracParsedOK parse cells = false) →
      identifyGo parse fmt cols = "No date column detected" := by
  intro cols
  induction cols with
  | nil => intro _; rfl
  | cons c rest ih =>
    intro h
    have hrest := ih fun c' hc' => h c' (List.mem_cons_of_mem c hc')
    rcases hd : c.data with cells | cells | nulls
    · simpa [identifyGo, hd] using hrest
    · have hc := h c (List.mem_cons_self c rest) cells hd
      simp [identifyGo, hd, hc, hrest]
    · simpa [identifyGo, hd] using hrest

/-- `identify_date_range` stops at the first passing object column and
formats its range, whatever follows it. -/
theorem identifyGo_found (parse : String → Option ℤ) (fmt : ℤ → String) :
    ∀ (pre : List Column) (c : Column) (cells : List (Option String))
      (post : List Column),
      c.data = .txt cells →
      fracParsedOK parse cells = true →
      (∀ c' ∈ pre, ∀ cells', c'.data = .txt cells' → fracParsedOK parse cells' = false) →
      identifyGo parse fmt (pre ++ c :: post) = fmtDateRange parse fmt cells := by
  intro pre
  induction pre with
  | nil =>
    intro c cells post hd hok _
    simp [identifyGo, hd, hok]
  | cons p pre' ih =>
    intro c cells post hd hok hpre
    have hrest := ih c cells post hd hok
      fun c' hc' => hpre c' (List.mem_cons_of_mem p hc')
    rcases hp : p.data with pcells | pcells | pnulls
    · simpa [identifyGo, hp] using hrest
    · have hpc := hpre p (List.mem_cons_self p pre') pcells hp
      simp [identifyGo, hp, hpc, hrest]
    · simpa [identifyGo, hp] using hrest

/-- C6: `identify_date_range` scans text-typed columns in table order,
returns the formatted range of the first one whose parsed fraction strictly
exceeds 0.7 without scanning further (the result does not depend on the
columns after it), and returns the literal message when no text column
passes. -/
theorem C6_thm (parse : String → Option ℤ) (fmt : ℤ → String) (df : Table) :
    ((∀ c ∈ df.cols, ∀ cells, c.data = .txt cells → fracParsedOK parse cells = false) →
      identify_date_range parse fmt df = "No date column detected") ∧
    (∀ (pre : List Column) (c : Column) (cells : List (Option String))
        (post : List Column),
      df.cols = pre ++ c :: post →
      c.data = .txt cells →
      fracParsedOK parse cells = true →
      (∀ c' ∈ pre, ∀ cells', c'.data = .txt cells' → fracParsedOK parse cells' = false) →
      identify_date_range parse fmt df = fmtDateRange parse fmt cells) := by
  constructor
  · intro h
    exact identifyGo_none parse fmt df.cols h
  · intro pre c cells post hsplit hd hok hpre
    unfold identify_date_range
    rw [hsplit]
    exact identifyGo_found parse fmt pre c cells post hd hok hpre

/-- C6 witness: a single text column parsing 3 of 3 values (dates 1 and 5)
yields its formatted range "1 to 5". -/
theorem C6_wit : identify_date_range parse0 fmt0 tblD = "1 to 5" := by
  have h := (C6_thm parse0 fmt0 tblD).2 [] colD
    [some "d1", some "d2", some "d1"] [] rfl rfl (by decide) (by simp)
  rw [h]
  decide

/-- C3 (amended): with an empty numeric-statistics sequence and an absent
correlation matrix the report consists exactly of the Title block, the
Overview block and the (unconditionally drawn) "Numeric Insights" section
heading — no records, no images, no page breaks, no correlation section. -/
theorem C3_thm (dataset_name : String) (overview : Overview)
    (categories : List CatSummary) :
    generate_pdf_report dataset_name overview [] none categories =
      [DrawOp.setFont "Helvetica-Bold" 16,
       DrawOp.drawString 50 (a4Height - 50) "Statscope Report",
       DrawOp.setFont "Helvetica-Oblique" 11,
       DrawOp.drawString 50 (a4Height - 75) ("Dataset: " ++ dataset_name),
       DrawOp.setFont "Helvetica" 11,
       DrawOp.drawString 50 (a4Height - 105) ("Rows: " ++ toString overview.total_rows),
       DrawOp.drawString 50 (a4Height - 120) ("Columns: " ++ toString overview.total_columns),
       DrawOp.drawString 50 (a4Height - 135) ("Date range: " ++ overview.date_range),
       DrawOp.setFont "Helvetica-Bold" 13,
       DrawOp.drawString 50 (a4Height - 165) "Numeric Insights"] := rfl

/-- C3 counterexample: the drawn content is not confined to the Title and
Overview blocks — the "Numeric Insights" heading is drawn even though no
numeric section content exists. -/
theorem C3_cex :
    "Numeric Insights" ∈ drawnStrings (generate_pdf_report "data.csv"
      ⟨5, 2, "No date column detected"⟩ [] none []) ∧
    "Numeric Insights" ∉ ["Statscope Report", "Dataset: data.csv", "Rows: 5",
      "Columns: 2", "Date range: No date column detected"] := by
  constructor
  · decide
  · decide

/-- Swapping every pair swaps the roles of the two coordinates and leaves
the Pearson computation unchanged. -/
theorem sqCorrCore_swap (ps : List (ℚ × ℚ)) :
    sqCorrCore (ps.map Prod.swap) = sqCorrCore ps := by
  by_cases h : ps.length = 0
  · simp [sqCorrCore, h]
  · have hfst : (ps.map Prod.swap).map Prod.fst = ps.map Prod.snd := by
      rw [List.map_map]; rfl
    have hsnd : (ps.map Prod.swap).map Prod.snd = ps.map Prod.fst := by
      rw [List.map_map]; rfl
    simp only [sqCorrCore, List.length_map, h, if_false, hfst, hsnd, List.map_map]
    generalize ((ps.map Prod.fst).sum / (ps.length : ℚ)) = A
    generalize ((ps.map Prod.snd).sum / (ps.length : ℚ)) = B
    have c1 : ((fun p : ℚ × ℚ => (p.1 - B) * (p.2 - A)) ∘ Prod.swap) =
        fun p : ℚ × ℚ => (p.1 - A) * (p.2 - B) := by
      funext p
      simp only [Function.comp_apply, Prod.fst_swap, Prod.snd_swap]
      ring
    have c2 : ((fun p : ℚ × ℚ => (p.1 - B) ^ 2) ∘ Prod.swap) =
        fun p : ℚ × ℚ => (p.2 - B) ^ 2 := rfl
    have c3 : ((fun p : ℚ × ℚ => (p.2 - A) ^ 2) ∘ Prod.swap) =
        fun p : ℚ × ℚ => (p.1 - A) ^ 2 := rfl
    rw [c1, c2, c3, mul_comm ((ps.map fun p => (p.2 - B) ^ 2).sum)]

/-- Zipping the two columns in the other order swaps every retained pair. -/
theorem nonNullPairs_swap (xs ys : List (Option ℚ)) :
    nonNullPairs ys xs = (nonNullPairs xs ys).map Prod.swap := by
  unfold nonNullPairs
  rw [← List.zip_swap xs ys, List.filterMap_map, List.map_filterMap]
  congr 1
  funext p
  rcases p with ⟨oa, ob⟩
  rcases oa with _ | a <;> rcases ob with _ | b <;> rfl

/-- A correlation entry is symmetric in its two columns. -/
theorem sqCorrEntry_comm (xs ys : List (Option ℚ)) :
    sqCorrEntry ys xs = sqCorrEntry xs ys := by
  unfold sqCorrEntry
  rw [nonNullPairs_swap, sqCorrCore_swap]

/-- Pairing a column with itself keeps exactly its non-null values,
duplicated. -/
theorem nonNullPairs_self (xs : List (Option ℚ)) :
    nonNullPairs xs xs = (xs.filterMap id).map fun a => (a, a) := by
  induction xs with
  | nil => rfl
  | cons c t ih =>
    cases c <;> simp [nonNullPairs, List.zip_cons_cons, List.filterMap_cons, ih] <;>
      exact ih ▸ rfl

/-- The Pearson computation on a self-paired list: 1 when the squared
deviation sum is nonzero, NaN when it is zero. -/
theorem sqCorrCore_diag (l : List ℚ) :
    sqCorrCore (l.map fun a => (a, a)) = if ssdList l = 0 then none else some 1 := by
  by_cases h : l.length = 0
  · have hnil : l = [] := List.length_eq_zero.mp h
    subst hnil
    simp [sqCorrCore, ssdList]
  · have hfst : (l.map fun a : ℚ => (a, a)).map Prod.fst = l := by
      rw [List.map_map]
      exact List.map_id l
    have hsnd : (l.map fun a : ℚ => (a, a)).map Prod.snd = l := by
      rw [List.map_map]
      exact List.map_id l
    simp only [sqCorrCore, List.length_map, h, if_false, hfst, hsnd, List.map_map]
    generalize hA : (l.sum / (l.length : ℚ)) = A
    have c1 : ((fun p : ℚ × ℚ => (p.1 - A) * (p.2 - A)) ∘ fun a : ℚ => (a, a)) =
        fun a : ℚ => (a - A) ^ 2 := by
      funext a
      simp only [Function.comp_apply]
      ring
    have c2 : ((fun p : ℚ × ℚ => (p.1 - A) ^ 2) ∘ fun a : ℚ => (a, a)) =
        fun a : ℚ => (a - A) ^ 2 := rfl
    have c3 : ((fun p : ℚ × ℚ => (p.2 - A) ^ 2) ∘ fun a : ℚ => (a, a)) =
        fun a : ℚ => (a - A) ^ 2 := rfl
    rw [c1, c2, c3]
    have hssd : (l.map fun a : ℚ => (a - A) ^ 2).sum = ssdList l := by
      unfold ssdList
      rw [hA]
    rw [hssd]
    have hnn : 0 ≤ ssdList l := by
      apply List.sum_nonneg
      intro x hx
      rcases List.mem_map.mp hx with ⟨a, _, rfl⟩
      positivity
    by_cases hS : ssdList l = 0
    · simp [hS]
    · rw [if_neg (by simpa [mul_self_eq_zero] using hS), if_neg hS]
      have : signedSq (ssdList l) = ssdList l ^ 2 := if_pos hnn
      rw [this, sq]
      rw [div_self (mul_ne_zero hS hS)]

/-- A diagonal correlation entry is 1, or NaN exactly when the column's
squared-deviation sum vanishes. -/
theorem sqCorrEntry_self (xs : List (Option ℚ)) :
    sqCorrEntry xs xs =
      if ssdList (xs.filterMap id) = 0 then none else some 1 := by
  unfold sqCorrEntry
  rw [nonNullPairs_self, sqCorrCore_diag]

/-- Indexing into the correlation matrix with out-of-range defaults. -/
theorem corrMatrixOf_getD (nc : List Column) (i j : Nat) :
    ((corrMatrixOf nc).getD i []).getD j none =
      if i < nc.length ∧ j < nc.length then
        sqCorrEntry (numCells (nc.getD i defCol)) (numCells (nc.getD j defCol))
      else none := by
  by_cases hi : i < nc.length
  · have hi' : i < (corrMatrixOf nc).length := by simpa [corrMatrixOf] using hi
    have h1 : (corrMatrixOf nc).getD i [] =
        nc.map fun cj => sqCorrEntry (numCells (nc.getD i defCol)) (numCells cj) := by
      unfold corrMatrixOf
      rw [List.getD_eq_getElem?_getD, List.getElem?_eq_getElem (by simpa using hi)]
      simp only [Option.getD_some, List.getElem_map]
      have : nc[i] = nc.getD i defCol := by
        rw [List.getD_eq_getElem?_getD, List.getElem?_eq_getElem hi]
        rfl
      rw [this]
    rw [h1]
    by_cases hj : j < nc.length
    · rw [List.getD_eq_getElem?_getD, List.getElem?_map,
        List.getElem?_eq_getElem hj, if_pos ⟨hi, hj⟩]
      have hx : nc[j] = nc.getD j defCol := by
        rw [List.getD_eq_getElem?_getD, List.getElem?_eq_getElem hj]
        rfl
      rw [hx]
      rfl
    · rw [List.getD_eq_getElem?_getD, List.getElem?_map,
        List.getElem?_eq_none (not_lt.mp hj), if_neg fun hc => hj hc.2]
      rfl
  · have h0 : (corrMatrixOf nc).getD i [] = [] := by
      rw [List.getD_eq_getElem?_getD (corrMatrixOf nc) i,
        List.getElem?_eq_none (by simpa [corrMatrixOf] using not_lt.mp hi)]
      rfl
    rw [h0, if_neg fun hc => hi hc.1]
    rfl

/-- C2 (amended): the correlation matrix is absent exactly when fewer than
two numeric columns exist; when present it is square with one row and
column per numeric column and symmetric, and each diagonal entry is 1
whenever the column's non-null values have a nonzero squared-deviation sum,
and NaN (`none`) when that sum is zero (constant column, at most one
non-null value): the diagonal is not always 1. -/
theorem C2_thm (df : Table) :
    (get_correlation_matrix df = none ↔ (numericCols df).length < 2) ∧
    ∀ M, get_correlation_matrix df = some M →
      M.length = (numericCols df).length ∧
      (∀ row ∈ M, row.length = (numericCols df).length) ∧
      (∀ i j, (M.getD i []).getD j none = (M.getD j []).getD i none) ∧
      (∀ i, i < (numericCols df).length →
        (M.getD i []).getD i none =
          if ssdList (dropNulls ((numericCols df).getD i defCol)) = 0 then none
          else some 1) := by
  constructor
  · simp only [get_correlation_matrix]
    by_cases h : 2 ≤ (numericCols df).length
    · rw [if_pos h]
      simp
      omega
    · rw [if_neg h]
      simp
      omega
  · intro M hM
    simp only [get_correlation_matrix] at hM
    by_cases h : 2 ≤ (numericCols df).length
    · rw [if_pos h] at hM
      injection hM with hM
      subst hM
      refine ⟨by simp [corrMatrixOf], ?_, ?_, ?_⟩
      · intro row hrow
        rcases List.mem_map.mp hrow with ⟨c, _, rfl⟩
        simp
      · intro i j
        rw [corrMatrixOf_getD, corrMatrixOf_getD]
        by_cases hc : i < (numericCols df).length ∧ j < (numericCols df).length
        · rw [if_pos hc, if_pos ⟨hc.2, hc.1⟩]
          exact (sqCorrEntry_comm _ _).symm
        · rw [if_neg hc, if_neg fun hc' => hc ⟨hc'.2, hc'.1⟩]
      · intro i hi
        rw [corrMatrixOf_getD, if_pos ⟨hi, hi⟩, sqCorrEntry_self]
        rfl
    · rw [if_neg h] at hM
      cases hM

/-- The `[1, 1]` column is constant: zero squared-deviation sum. -/
theorem ssd_colK : ssdList (dropNulls colK) = 0 := by
  have h : dropNulls colK = [1, 1] := rfl
  rw [h]
  norm_num [ssdList]

/-- The `[1, 2]` column has squared-deviation sum 1/2. -/
theorem ssd_colL : ssdList (dropNulls colL) = 1 / 2 := by
  have h : dropNulls colL = [1, 2] := rfl
  rw [h]
  norm_num [ssdList]

theorem entry_KK : sqCorrEntry (numCells colK) (numCells colK) = none := by
  rw [sqCorrEntry_self]
  exact if_pos ssd_colK

theorem entry_LL : sqCorrEntry (numCells colL) (numCells colL) = some 1 := by
  rw [sqCorrEntry_self]
  rw [if_neg (by rw [show (numCells colL).filterMap id = dropNulls colL from rfl, ssd_colL]; norm_num)]

theorem entry_KL : sqCorrEntry (numCells colK) (numCells colL) = none := by
  have hp : nonNullPairs (numCells colK) (numCells colL) = [(1, 1), (1, 2)] := rfl
  unfold sqCorrEntry
  rw [hp]
  simp only [sqCorrCore]
  norm_num

theorem entry_LK : sqCorrEntry (numCells colL) (numCells colK) = none :=
  (sqCorrEntry_comm (numCells colK) (numCells colL)).trans entry_KL

/-- The full matrix of the fixture table with a constant column. -/
theorem corr_tblKL :
    get_correlation_matrix tblKL = some [[none, none], [none, some 1]] := by
  have hK : numericCols tblKL = [colK, colL] := rfl
  simp only [get_correlation_matrix, hK]
  rw [if_pos (by norm_num)]
  simp only [corrMatrixOf, List.map_cons, List.map_nil]
  rw [entry_KK, entry_KL, entry_LK, entry_LL]

/-- C2 counterexample: a table with two numeric columns, one of them
constant — the matrix is present but its first diagonal entry is NaN, not
1. -/
theorem C2_cex :
    get_correlation_matrix tblKL = some [[none, none], [none, some 1]] ∧
    ¬ ∀ i < ([[none, none], [none, (some 1 : Option ℚ)]]).length,
        (([[none, none], [none, (some 1 : Option ℚ)]].getD i []).getD i none) = some 1 :=
  ⟨corr_tblKL, by decide⟩

/-- C2 witness: the amended theorem instantiated on the fixture matrix —
symmetry at (0, 1) and the diagonal characterisation at index 1. -/
theorem C2_wit :
    (([[none, none], [none, (some 1 : Option ℚ)]].getD 0 []).getD 1 none =
      ([[none, none], [none, (some 1 : Option ℚ)]].getD 1 []).getD 0 none) ∧
    (([[none, none], [none, (some 1 : Option ℚ)]].getD 1 []).getD 1 none =
      if ssdList (dropNulls ((numericCols tblKL).getD 1 defCol)) = 0 then none
      else some 1) := by
  have h := (C2_thm tblKL).2 [[none, none], [none, some 1]] corr_tblKL
  exact ⟨h.2.2.1 0 1, h.2.2.2 1 (by decide)⟩

/-- Every enumerated index pair is strictly upper-triangular. -/
theorem upperTriPairs_fst_lt_snd (K : Nat) :
    ∀ p ∈ upperTriPairs K, p.1 < p.2 := by
  intro p hp
  rcases List.mem_flatMap.mp hp with ⟨i, _, hpi⟩
  rcases List.mem_map.mp hpi with ⟨j, hj, rfl⟩
  have h := (List.mem_range'_1.mp hj).1
  simpa using Nat.lt_of_succ_le h

theorem upperTriPairs_pairwise_aux (K : Nat) :
    ∀ l : List Nat, l.Pairwise (· < ·) →
      (l.flatMap fun i =>
        (List.range' (i + 1) (K - (i + 1))).map fun j => (i, j)).Pairwise pairLexLt := by
  intro l
  induction l with
  | nil => intro _; simp
  | cons a t ih =>
    intro hp
    rw [List.flatMap_cons]
    apply List.pairwise_append.mpr
    refine ⟨?_, ih (List.pairwise_cons.mp hp).2, ?_⟩
    · rw [List.pairwise_map]
      have h1 : (List.range' (a + 1) (K - (a + 1))).Pairwise (· < ·) := by
        rw [List.range'_eq_map_range, List.pairwise_map]
        exact (List.pairwise_lt_range _).imp fun h => by omega
      exact h1.imp fun h => Or.inr ⟨rfl, h⟩
    · intro x hx y hy
      rcases List.mem_map.mp hx with ⟨jx, _, rfl⟩
      rcases List.mem_flatMap.mp hy with ⟨b, hb, hyb⟩
      rcases List.mem_map.mp hyb with ⟨jy, _, rfl⟩
      exact Or.inl ((List.pairwise_cons.mp hp).1 b hb)

/-- The double loop enumerates index pairs in strictly increasing
lexicographic order: no pair repeats, none appears in both orders. -/
theorem upperTriPairs_pairwise (K : Nat) :
    (upperTriPairs K).Pairwise pairLexLt := by
  unfold upperTriPairs
  exact upperTriPairs_pairwise_aux K (List.range K) (List.pairwise_lt_range K)

/-- C5: `find_correlations` is empty on fewer than two numeric columns, and
otherwise filters the upper-triangular pairs (i < j, enumerated in strictly
increasing lexicographic order, hence no repeats, no self-pairs and no pair
in both orders); every returned pair passes the absolute threshold test
(`|corr| ≥ t`, encoded on the signed square as `t ≤ 0 ∨ t² ≤ |s|`) and its
direction is "positive" exactly when its coefficient is strictly positive
and "negative" otherwise. -/
theorem C5_thm (df : Table) (threshold : ℚ) :
    ((numericCols df).length < 2 → find_correlations df threshold = []) ∧
    (¬ (numericCols df).length < 2 →
      find_correlations df threshold =
        (upperTriPairs (numericCols df).length).filterMap
          (corrPairAt (numericCols df) threshold)) ∧
    (∀ p ∈ upperTriPairs (numericCols df).length, p.1 < p.2) ∧
    (upperTriPairs (numericCols df).length).Pairwise pairLexLt ∧
    ∀ p ∈ find_correlations df threshold,
      (threshold ≤ 0 ∨ threshold ^ 2 ≤ |p.correlation|) ∧
      (p.direction = "positive" ↔ 0 < p.correlation) ∧
      (p.direction = "negative" ↔ ¬ 0 < p.correlation) := by
  refine ⟨fun h => by simp [find_correlations, h],
    fun h => by simp [find_correlations, h],
    upperTriPairs_fst_lt_snd _, upperTriPairs_pairwise _, ?_⟩
  intro p hp
  simp only [find_correlations] at hp
  by_cases hK : (numericCols df).length < 2
  · rw [if_pos hK] at hp
    exact absurd hp (List.not_mem_nil p)
  · rw [if_neg hK] at hp
    rcases List.mem_filterMap.mp hp with ⟨ij, _, heq⟩
    unfold corrPairAt at heq
    split at heq
    · exact Option.noConfusion heq
    · rename_i s hE
      split at heq
      · rename_i habs
        injection heq with heq
        subst heq
        refine ⟨?_, ?_, ?_⟩
        · simp only [absGeThreshold, Bool.or_eq_true, decide_eq_true_eq] at habs
          exact habs
        · by_cases h0 : 0 < s <;> simp [h0]
        · by_cases h0 : 0 < s <;> simp [h0]
      · exact Option.noConfusion heq

/-- The fixture columns `[1, 2, 3]` and `[2, 4, 6]` correlate exactly 1. -/
theorem entry_XY : sqCorrEntry (numCells colX) (numCells colY) = some 1 := by
  have hp : nonNullPairs (numCells colX) (numCells colY) = [(1, 2), (2, 4), (3, 6)] := rfl
  unfold sqCorrEntry
  rw [hp]
  simp only [sqCorrCore]
  norm_num [signedSq]

theorem find_tblXY : find_correlations tblXY (1 / 2) = [corrP0] := by
  have hn : numericCols tblXY = [colX, colY] := rfl
  simp only [find_correlations, hn]
  rw [if_neg (by norm_num)]
  have hu : upperTriPairs ([colX, colY].length) = [(0, 1)] := rfl
  rw [hu, List.filterMap_cons, List.filterMap_nil]
  have habs : absGeThreshold (1 / 2 : ℚ) 1 = true := by
    unfold absGeThreshold
    rw [decide_eq_true (show ((1 : ℚ) / 2) ^ 2 ≤ |(1 : ℚ)| by norm_num)]
    simp
  have hc : corrPairAt [colX, colY] (1 / 2) (0, 1) = some corrP0 := by
    unfold corrPairAt
    rw [show sqCorrEntry (numCells ([colX, colY].getD (0, 1).1 defCol))
        (numCells ([colX, colY].getD (0, 1).2 defCol)) = some 1 from entry_XY]
    show (if absGeThreshold (1 / 2 : ℚ) 1 = true then
        some { column1 := ([colX, colY].getD (0, 1).1 defCol).name,
               column2 := ([colX, colY].getD (0, 1).2 defCol).name,
               correlation := (1 : ℚ),
               direction := if (0 : ℚ) < 1 then "positive" else "negative" }
      else none) = some corrP0
    rw [if_pos habs, if_pos (show (0 : ℚ) < 1 by norm_num)]
    rfl
  rw [hc]

/-- C5 witness: on `tblXY` with threshold 1/2 the single returned pair
passes the threshold and is labelled "positive". -/
theorem C5_wit :
    ((1 : ℚ) / 2 ≤ 0 ∨ ((1 : ℚ) / 2) ^ 2 ≤ |corrP0.correlation|) ∧
    (corrP0.direction = "positive" ↔ 0 < corrP0.correlation) ∧
    (corrP0.direction = "negative" ↔ ¬ 0 < corrP0.correlation) :=
  (C5_thm tblXY (1 / 2)).2.2.2.2 corrP0
    (by rw [find_tblXY]; exact List.mem_singleton_self _)

end Statscope
